import Mathlib

set_option maxRecDepth 100000

/-!
Verification of the Matching & Scoring Engine of the JobGenie repository
(`src/nlp/matcher.py`, class `JobMatcher`).

The Python code is shallowly embedded below.  Job records are modelled as a
structure of their string fields (a missing field and the empty string behave
identically everywhere the code reads them through `job.get(key, '')`, except
where noted); Python floats are modelled as exact rationals `ℚ`; `datetime.now()`
is modelled by an explicit `now : Nat` parameter counting whole days (the code
only ever uses `(now - midnight_of_pub_date).days`, which equals the difference
of the two calendar-day numbers for any time of day).
-/

/-! ### Python string primitives -/

/-- `startsWithChars n h` : the char list `n` is a prefix of `h`. -/
def startsWithChars : List Char → List Char → Bool
  | [], _ => true
  | _ :: _, [] => false
  | a :: as, b :: bs => a == b && startsWithChars as bs

/-- Python's `needle in hay` substring test on char lists. -/
def substringOf (needle : List Char) : List Char → Bool
  | [] => startsWithChars needle []
  | c :: cs => startsWithChars needle (c :: cs) || substringOf needle cs

/-- Python's `needle in hay` substring test on strings. -/
def pyIn (needle hay : String) : Bool :=
  substringOf needle.toList hay.toList

/-- Python's `str.lower()` (ASCII fragment, as `Char.toLower`); defined
character-wise so that it evaluates inside the kernel. -/
def pyLower (s : String) : String :=
  ⟨s.toList.map Char.toLower⟩

/-- ASCII whitespace, the fragment of Python's regex `\s` relevant here. -/
def isSpaceChar (c : Char) : Bool :=
  c == ' ' || c == '\t' || c == '\n' || c == '\r' ||
  c == Char.ofNat 11 || c == Char.ofNat 12

/-- Numeric value of a list of decimal digit characters. -/
def digitsVal (cs : List Char) : Nat :=
  cs.foldl (fun n c => n * 10 + (c.toNat - 48)) 0

/-! ### Salary regex model

`_extract_salary_value` searches, in order, the patterns
`(\d{1,3}(?:\s\d{3})*)\s*SUF` for `SUF` in `€`, `EUR`, `k€`, `K`, all with
`re.IGNORECASE`.  The backtracking matcher for this one pattern shape is
implemented directly: greedy 1–3 leading digits, then greedily repeated
`\s\d{3}` groups, then `\s*`, then the literal suffix, each with backtracking.
The group-1 text (digits possibly separated by whitespace) is returned. -/

/-- Case-insensitive literal match of `lit` at the head of the input. -/
def matchLit : List Char → List Char → Bool
  | [], _ => true
  | _ :: _, [] => false
  | l :: ls, c :: cs => l == c.toLower && matchLit ls cs

/-- `\s*` followed by the literal suffix `suf`, with backtracking over the
number of whitespace characters consumed. -/
def matchSpacesThen (suf : List Char) : List Char → Bool
  | [] => matchLit suf []
  | c :: cs => matchLit suf (c :: cs) || (isSpaceChar c && matchSpacesThen suf cs)

/-- Greedily repeated `(?:\s\d{3})` groups, then `\s*suf`; returns the group-1
text accumulated so far on success.  Trying the longer continuation first and
falling back mirrors the regex engine's backtracking. -/
def matchGroups (suf : List Char) : List Char → List Char → Option (List Char)
  | c :: d1 :: d2 :: d3 :: rest, acc =>
    (if isSpaceChar c && d1.isDigit && d2.isDigit && d3.isDigit then
       matchGroups suf rest (acc ++ [c, d1, d2, d3])
     else none)
    <|> (if matchSpacesThen suf (c :: d1 :: d2 :: d3 :: rest) then some acc else none)
  | cs, acc => if matchSpacesThen suf cs then some acc else none

/-- Attempt the whole pattern at the current position: greedy `\d{1,3}`
(3 digits first, backtracking to 2 then 1), then the groups and tail. -/
def matchAt (suf : List Char) : List Char → Option (List Char)
  | [] => none
  | d1 :: rest1 =>
    if d1.isDigit then
      (match rest1 with
       | d2 :: rest2 =>
         if d2.isDigit then
           (match rest2 with
            | d3 :: rest3 =>
              if d3.isDigit then matchGroups suf rest3 [d1, d2, d3] else none
            | [] => none)
           <|> matchGroups suf rest2 [d1, d2]
         else none
       | [] => none)
      <|> matchGroups suf rest1 [d1]
    else none

/-- `re.search`: try the pattern at each position, leftmost match wins. -/
def searchPat (suf : List Char) : List Char → Option (List Char)
  | [] => none
  | c :: cs => matchAt suf (c :: cs) <|> searchPat suf cs

/-- One iteration of the pattern loop in `_extract_salary_value`: search for
the pattern, strip `' '` (only plain spaces, as `replace(' ', '')` does) from
the group, parse it as a number (failure falls through to the next pattern,
matching the `except ValueError: continue`), and multiply by 1000 when the
whole salary text contains a `k`/`K`. -/
def tryPattern (cs textLower : List Char) (suf : List Char) : Option ℚ :=
  match searchPat suf cs with
  | none => none
  | some grp =>
    let vs := grp.filter (fun c => c != ' ')
    if vs.all (·.isDigit) then
      some ((if substringOf ['k'] textLower then digitsVal vs * 1000 else digitsVal vs : ℕ) : ℚ)
    else none

/-- `JobMatcher._extract_salary_value`. -/
def extract_salary_value (salary_text : String) : Option ℚ :=
  if salary_text = "" then none
  else
    List.findSome?
      (tryPattern salary_text.toList (salary_text.toList.map Char.toLower))
      [['€'], ['e', 'u', 'r'], ['k', '€'], ['k']]

/-! ### Date model

`_is_job_recent` parses the publication date with
`datetime.strptime(s, '%Y-%m-%d')`: exactly four year digits, a 1–2 digit
month in 1..12, a 1–2 digit day valid for that month and year, nothing left
over; year 0 is rejected (`datetime.MINYEAR = 1`).  A parsed date is turned
into an absolute day count so that `(now - pub).days` is the difference of
day counts. -/

/-- Gregorian leap year. -/
def isLeapYear (y : Nat) : Bool :=
  y % 4 == 0 && (y % 100 != 0 || y % 400 == 0)

/-- Number of days in a month. -/
def daysInMonth (y m : Nat) : Nat :=
  if m == 2 then (if isLeapYear y then 29 else 28)
  else if m == 4 || m == 6 || m == 9 || m == 11 then 30
  else 31

/-- Absolute day number of a calendar date (proleptic Gregorian). -/
def dateToDays (y m d : Nat) : Nat :=
  365 * (y - 1) + (y - 1) / 4 - (y - 1) / 100 + (y - 1) / 400 +
  (List.range (m - 1)).foldl (fun acc i => acc + daysInMonth y (i + 1)) 0 + d

/-- A field of exactly `lo`–`hi` decimal digits whose value is `v`. -/
def digitField (lo hi : Nat) (s : List Char) : Option Nat :=
  if lo ≤ s.length && s.length ≤ hi && s.all (·.isDigit) then some (digitsVal s)
  else none

/-- `datetime.strptime(s, '%Y-%m-%d')`, returning the date on success. -/
def parseDate (s : String) : Option (Nat × Nat × Nat) :=
  match s.toList.splitOn '-' with
  | [ys, ms, ds] =>
    match digitField 4 4 ys, digitField 1 2 ms, digitField 1 2 ds with
    | some y, some m, some d =>
      if 1 ≤ y && 1 ≤ m && m ≤ 12 && 1 ≤ d && d ≤ daysInMonth y m then
        some (y, m, d)
      else none
    | _, _, _ => none
  | _ => none

/-! ### Fuzzy matching: `difflib.SequenceMatcher` model

`_fuzzy_match(a, b)` is `SequenceMatcher(None, a, b).ratio() >= 0.8`.
`ratio()` is `2*M / (len(a)+len(b))` where `M` is the total size of the
matching blocks: recursively, the longest block matching `a[alo:ahi]` against
`b[blo:bhi]` (ties broken by earliest start in `a`, then in `b`), then the
sub-ranges to its left and to its right.  The autojunk heuristic of difflib is
only active for `len(b) ≥ 200` and is not modelled; no junk is ever declared
for the short location strings the matcher compares. -/

/-- Length of the longest common prefix of two char lists. -/
def commonPrefixLen : List Char → List Char → Nat
  | a :: as, b :: bs => if a == b then commonPrefixLen as bs + 1 else 0
  | _, _ => 0

/-- `find_longest_match` over whole lists: the triple `(i, j, k)` of the
longest block with `a[i:i+k] = b[j:j+k]`, maximising `k` and breaking ties by
smallest `i`, then smallest `j` (scanning order with strict improvement). -/
def bestMatch (a b : List Char) : Nat × Nat × Nat :=
  (List.range a.length).foldl (fun best i =>
    (List.range b.length).foldl (fun best j =>
      let k := commonPrefixLen (a.drop i) (b.drop j)
      if best.2.2 < k then (i, j, k) else best) best) (0, 0, 0)

/-- Total matched size `M`, the divide-and-conquer of `get_matching_blocks`.
The recursion depth is bounded by the list lengths (every recursive call
strictly shrinks `a`), so the fuel `a.length + b.length + 1` is never
exhausted. -/
def matchTotalFuel : Nat → List Char → List Char → Nat
  | 0, _, _ => 0
  | fuel + 1, a, b =>
    let t := bestMatch a b
    if t.2.2 = 0 then 0
    else
      matchTotalFuel fuel (a.take t.1) (b.take t.2.1) + t.2.2 +
      matchTotalFuel fuel (a.drop (t.1 + t.2.2)) (b.drop (t.2.1 + t.2.2))

/-- Total matched size `M` between two char lists. -/
def matchTotal (a b : List Char) : Nat :=
  matchTotalFuel (a.length + b.length + 1) a b

/-- `SequenceMatcher(None, a, b).ratio()`. -/
def sequenceSimilarity (a b : List Char) : ℚ :=
  2 * (matchTotal a b : ℚ) / ((a.length + b.length : ℕ) : ℚ)

/-- `JobMatcher._fuzzy_match` with its default threshold 0.8. -/
def fuzzy_match (text1 text2 : String) : Bool :=
  decide ((8 : ℚ) / 10 ≤ sequenceSimilarity text1.toList text2.toList)

/-! ### Data model

A listing record (`ListingRecord`): the string fields the matcher reads
through `job.get(key, '')` are plain strings (a missing key and `''` are
indistinguishable there); `salaire` and `date_publication` are read without a
string default, so they are `Option String` (`none` = key absent or `None`).
`match_score` is the one field the engine adds. -/

structure Job where
  titre : String
  description : String
  localisation : String
  type_contrat : String
  salaire : Option String
  date_publication : Option String
  match_score : Option ℚ
deriving DecidableEq

/-- The recognised preference keys (`config.get_preferences()`). -/
structure Prefs where
  stack_technique : List String
  localisation : List String
  type_contrat : List String
  salaire_min : ℚ
  mots_cles : List String
deriving DecidableEq

/-- `job['match_score'] = score`. -/
def setScore (j : Job) (s : ℚ) : Job :=
  { j with match_score := some s }

/-- `x.get('match_score', 0)`, the sort and safety-floor key. -/
def scoreKey (j : Job) : ℚ :=
  j.match_score.getD 0

/-- `f"{job.get('titre', '')} {job.get('description', '')}".lower()`. -/
def job_text (j : Job) : String :=
  pyLower (j.titre ++ " " ++ j.description)

/-! ### Scoring engine (`JobMatcher`, `src/nlp/matcher.py`) -/

/-- `JobMatcher._calculate_keyword_score`. -/
def calculate_keyword_score (p : Prefs) (j : Job) : ℚ :=
  if p.stack_technique.isEmpty then 1/2
  else
    ((p.stack_technique.countP fun k => pyIn (pyLower k) (job_text j)) : ℚ) /
      (p.stack_technique.length : ℚ)

/-- `JobMatcher._calculate_location_score`. -/
def calculate_location_score (p : Prefs) (j : Job) : ℚ :=
  if p.localisation.isEmpty then 1/2
  else
    let job_location := pyLower j.localisation
    if job_location = "" then 3/10
    else if p.localisation.any fun l => pyIn (pyLower l) job_location then 1
    else if p.localisation.any fun l => fuzzy_match (pyLower l) job_location then 8/10
    else 1/5

/-- `JobMatcher._calculate_contract_score`. -/
def calculate_contract_score (p : Prefs) (j : Job) : ℚ :=
  if p.type_contrat.isEmpty then 1/2
  else
    let job_contract := pyLower j.type_contrat
    if job_contract = "" then 3/10
    else if p.type_contrat.any fun c => pyIn (pyLower c) job_contract then 1
    else 1/5

/-- `JobMatcher._calculate_salary_score`. -/
def calculate_salary_score (p : Prefs) (j : Job) : ℚ :=
  if p.salaire_min ≤ 0 then 1/2
  else
    match j.salaire with
    | none => 3/10
    | some s =>
      if s = "" then 3/10
      else
        match extract_salary_value s with
        | none => 3/10
        | some v =>
          if p.salaire_min ≤ v then 1
          else if p.salaire_min * (8/10) ≤ v then 7/10
          else 3/10

/-- `JobMatcher._calculate_company_score` (constant neutral placeholder). -/
def calculate_company_score (_j : Job) : ℚ := 1/2

/-- `JobMatcher._calculate_match_score`: weighted sum of the five sub-scores
(weights 0.3, 0.25, 0.2, 0.15, 0.1), capped at 1.0. -/
def calculate_match_score (p : Prefs) (j : Job) : ℚ :=
  min (calculate_keyword_score p j * (3/10) +
       calculate_location_score p j * (1/4) +
       calculate_contract_score p j * (1/5) +
       calculate_salary_score p j * (3/20) +
       calculate_company_score j * (1/10))
    1

/-- Body of `JobMatcher._is_job_recent` for a present string date: empty is
falsy ⇒ recent; unparsable ⇒ `ValueError` is caught ⇒ recent; otherwise
recent iff `(now - pub).days <= 7`. -/
def recentStr (now : Nat) (s : String) : Bool :=
  if s = "" then true
  else
    match parseDate s with
    | none => true
    | some (y, m, d) => decide ((now : ℤ) - (dateToDays y m d : ℤ) ≤ 7)

/-- `JobMatcher._is_job_recent` with `now` the current day number; a missing
date (`None`) is falsy ⇒ recent. -/
def is_job_recent (now : Nat) (j : Job) : Bool :=
  match j.date_publication with
  | none => true
  | some s => recentStr now s

/-- `JobMatcher._has_required_keywords`. -/
def has_required_keywords (p : Prefs) (j : Job) : Bool :=
  p.mots_cles.isEmpty || p.mots_cles.any fun k => pyIn (pyLower k) (job_text j)

/-- `JobMatcher._meets_location_requirement`. -/
def meets_location_requirement (p : Prefs) (j : Job) : Bool :=
  if p.localisation.isEmpty then true
  else if p.localisation.any fun l => pyIn "remote" (pyLower l) then true
  else
    let job_location := pyLower j.localisation
    if job_location = "" then true
    else p.localisation.any fun l => pyIn (pyLower l) job_location

/-- `JobMatcher._apply_strict_filters`: keep a job unless its score is below
the 0.3 safety floor, it lacks every mandatory keyword, or it fails the
location requirement (the `continue` chain is a conjunctive filter). -/
def apply_strict_filters (p : Prefs) (l : List Job) : List Job :=
  l.filter fun j =>
    !(decide (scoreKey j < 3/10)) &&
    has_required_keywords p j &&
    meets_location_requirement p j

/-- Stable insertion into a descending-by-score list: walk past the strictly
greater scores, settle before the first element whose score is `≤` ours, so
that earlier input elements with an equal score stay in front. -/
def insertDesc (j : Job) : List Job → List Job
  | [] => [j]
  | x :: xs => if scoreKey j < scoreKey x then x :: insertDesc j xs else j :: x :: xs

/-- `scored_jobs.sort(key=..., reverse=True)`: Python's sort is stable, and a
stable descending sort is extensionally unique, so stable insertion sort is a
faithful model. -/
def sortByScoreDesc : List Job → List Job
  | [] => []
  | j :: js => insertDesc j (sortByScoreDesc js)

/-- The recency-filter and scoring stages of `filter_jobs`: keep the recent
jobs, score them, and keep those with score `>= 0.6` with the score written
into the record.  (Scoring is total on this typed model, so the
`except Exception` branch is unreachable here; the dynamically-typed model
below exercises it.) -/
def scored_jobs (p : Prefs) (now : Nat) (jobs : List Job) : List Job :=
  (jobs.filter (is_job_recent now)).filterMap fun j =>
    let s := calculate_match_score p j
    if (6 : ℚ)/10 ≤ s then some (setScore j s) else none

/-- `JobMatcher.filter_jobs`: recency filter, scoring with the 0.6 threshold,
descending stable sort, then the strict gate filters. -/
def filter_jobs (p : Prefs) (now : Nat) (jobs : List Job) : List Job :=
  apply_strict_filters p (sortByScoreDesc (scored_jobs p now jobs))

/-! ### Dynamically-typed model (for the error-handling behaviour)

Listing records are raw Python dicts, so a field can also hold a non-string
value.  The matcher's behaviour then depends on where the value is read:
`_is_job_recent` runs outside the `try` of `filter_jobs` and its own
`except ValueError` does not catch the `TypeError` that `strptime` raises on
a non-string, while scoring runs inside `except Exception`.  `PyVal` models
the publication-date and location fields with their dynamic type;
`Except Unit` models a raised exception. -/

inductive PyVal where
  | missing : PyVal
  | strv : String → PyVal
  | intv : Int → PyVal
deriving DecidableEq

/-- A listing record with dynamically-typed `localisation` and
`date_publication` fields. -/
structure JobD where
  titre : String
  description : String
  localisation : PyVal
  type_contrat : String
  salaire : Option String
  date_publication : PyVal
  match_score : Option ℚ
deriving DecidableEq

/-- `job['match_score'] = score` on the dynamic model. -/
def setScoreD (j : JobD) (s : ℚ) : JobD :=
  { j with match_score := some s }

/-- `x.get('match_score', 0)` on the dynamic model. -/
def scoreKeyD (j : JobD) : ℚ :=
  j.match_score.getD 0

/-- `_is_job_recent` on a dynamic date field: `None` and falsy values (0)
short-circuit to recent; a truthy non-string reaches
`datetime.strptime(pub_date_str, ...)`, which raises `TypeError`; the
surrounding `except ValueError` does not catch it, so the call raises. -/
def is_job_recentD (now : Nat) (j : JobD) : Except Unit Bool :=
  match j.date_publication with
  | .missing => .ok true
  | .strv s => .ok (recentStr now s)
  | .intv n => if n = 0 then .ok true else .error ()

/-- `job_text` on the dynamic model (title and description stay strings). -/
def job_textD (j : JobD) : String :=
  pyLower (j.titre ++ " " ++ j.description)

/-- `_calculate_keyword_score` on the dynamic model. -/
def calculate_keyword_scoreD (p : Prefs) (j : JobD) : ℚ :=
  if p.stack_technique.isEmpty then 1/2
  else
    ((p.stack_technique.countP fun k => pyIn (pyLower k) (job_textD j)) : ℚ) /
      (p.stack_technique.length : ℚ)

/-- `_calculate_location_score` on the dynamic model: with location
preferences configured, `job.get('localisation', '').lower()` raises
`AttributeError` when the field holds a non-string; with no preferences the
field is never read. -/
def calculate_location_scoreD (p : Prefs) (j : JobD) : Except Unit ℚ :=
  if p.localisation.isEmpty then .ok (1/2)
  else
    match j.localisation with
    | .intv _ => .error ()
    | .missing => .ok (3/10)
    | .strv s =>
      .ok
        (let job_location := pyLower s
         if job_location = "" then 3/10
         else if p.localisation.any fun l => pyIn (pyLower l) job_location then 1
         else if p.localisation.any fun l => fuzzy_match (pyLower l) job_location then 8/10
         else 1/5)

/-- `_calculate_contract_score` on the dynamic model. -/
def calculate_contract_scoreD (p : Prefs) (j : JobD) : ℚ :=
  if p.type_contrat.isEmpty then 1/2
  else
    let job_contract := pyLower j.type_contrat
    if job_contract = "" then 3/10
    else if p.type_contrat.any fun c => pyIn (pyLower c) job_contract then 1
    else 1/5

/-- `_calculate_salary_score` on the dynamic model. -/
def calculate_salary_scoreD (p : Prefs) (j : JobD) : ℚ :=
  if p.salaire_min ≤ 0 then 1/2
  else
    match j.salaire with
    | none => 3/10
    | some s =>
      if s = "" then 3/10
      else
        match extract_salary_value s with
        | none => 3/10
        | some v =>
          if p.salaire_min ≤ v then 1
          else if p.salaire_min * (8/10) ≤ v then 7/10
          else 3/10

/-- `_calculate_match_score` on the dynamic model; the sub-scores are
computed in source order, so an exception in the location sub-score
propagates before the later sub-scores run. -/
def calculate_match_scoreD (p : Prefs) (j : JobD) : Except Unit ℚ := do
  let kw := calculate_keyword_scoreD p j
  let loc ← calculate_location_scoreD p j
  let con := calculate_contract_scoreD p j
  let sal := calculate_salary_scoreD p j
  pure (min (kw * (3/10) + loc * (1/4) + con * (1/5) + sal * (3/20) + (1/2) * (1/10)) 1)

/-- The recency loop of `filter_jobs` on the dynamic model: it runs outside
any `try`, so the first raising record aborts the whole call. -/
def recent_filterD (now : Nat) : List JobD → Except Unit (List JobD)
  | [] => .ok []
  | j :: js => do
    let b ← is_job_recentD now j
    let rest ← recent_filterD now js
    pure (if b then j :: rest else rest)

/-- The scoring loop of `filter_jobs` on the dynamic model: scoring runs
inside `try ... except Exception`, so a raising record is skipped and the
loop continues. -/
def scored_jobsD (p : Prefs) : List JobD → List JobD :=
  List.filterMap fun j =>
    match calculate_match_scoreD p j with
    | .error _ => none
    | .ok s => if (6 : ℚ)/10 ≤ s then some (setScoreD j s) else none

/-- Stable descending insertion on the dynamic model. -/
def insertDescD (j : JobD) : List JobD → List JobD
  | [] => [j]
  | x :: xs => if scoreKeyD j < scoreKeyD x then x :: insertDescD j xs else j :: x :: xs

/-- The stable descending sort on the dynamic model. -/
def sortByScoreDescD : List JobD → List JobD
  | [] => []
  | j :: js => insertDescD j (sortByScoreDescD js)

/-- `_has_required_keywords` on the dynamic model. -/
def has_required_keywordsD (p : Prefs) (j : JobD) : Bool :=
  p.mots_cles.isEmpty || p.mots_cles.any fun k => pyIn (pyLower k) (job_textD j)

/-- `_meets_location_requirement` on the dynamic model: the empty-preference
and remote checks return before the job's location field is read, after which
`.lower()` on a non-string raises. -/
def meets_location_requirementD (p : Prefs) (j : JobD) : Except Unit Bool :=
  if p.localisation.isEmpty then .ok true
  else if p.localisation.any fun l => pyIn "remote" (pyLower l) then .ok true
  else
    match j.localisation with
    | .intv _ => .error ()
    | .missing => .ok true
    | .strv s =>
      .ok
        (let job_location := pyLower s
         if job_location = "" then true
         else p.localisation.any fun l => pyIn (pyLower l) job_location)

/-- `_apply_strict_filters` on the dynamic model; it runs outside the `try`,
so an exception raised by the location requirement propagates. -/
def apply_strict_filtersD (p : Prefs) : List JobD → Except Unit (List JobD)
  | [] => .ok []
  | j :: js =>
    if scoreKeyD j < 3/10 then apply_strict_filtersD p js
    else if !has_required_keywordsD p j then apply_strict_filtersD p js
    else do
      let b ← meets_location_requirementD p j
      let rest ← apply_strict_filtersD p js
      pure (if b then j :: rest else rest)

/-- `filter_jobs` on the dynamic model. -/
def filter_jobsD (p : Prefs) (now : Nat) (jobs : List JobD) : Except Unit (List JobD) := do
  let recent ← recent_filterD now jobs
  apply_strict_filtersD p (sortByScoreDescD (scored_jobsD p recent))

/-! ### Concrete fixtures used by witnesses and counterexamples -/

/-- The current day used by the concrete runs: 2026-10-12. -/
def now0 : Nat := dateToDays 2026 10 12

/-- A listing published 7 days before `now0`, matching the fixture
preferences exactly. -/
def jobA : Job :=
  { titre := "Python Dev", description := "Backend", localisation := "Paris",
    type_contrat := "CDI", salaire := some "45 000 €",
    date_publication := some "2026-10-05", match_score := none }

/-- Preferences under which `jobA` scores `1/4·0.3 + 0.25 + 0.2 + 0.5·0.15 +
0.5·0.1 = 0.65` but fails the mandatory-keyword gate. -/
def prefsGate : Prefs :=
  { stack_technique := ["Python", "Java", "Go", "Rust"], localisation := ["Paris"],
    type_contrat := ["CDI"], salaire_min := 0, mots_cles := ["zzz"] }

/-- `prefsGate` without the mandatory keyword, so `jobA` reaches the output. -/
def prefsOpen : Prefs :=
  { stack_technique := ["Python", "Java", "Go", "Rust"], localisation := ["Paris"],
    type_contrat := ["CDI"], salaire_min := 0, mots_cles := [] }

/-- Preferences that `jobA` matches perfectly on all four scored factors. -/
def prefsPerfect : Prefs :=
  { stack_technique := ["Python"], localisation := ["Paris"],
    type_contrat := ["CDI"], salaire_min := 40000, mots_cles := [] }

/-- A dynamic record whose publication date holds a truthy non-string. -/
def jobBadDate : JobD :=
  { titre := "Python Dev", description := "Backend", localisation := .strv "Paris",
    type_contrat := "CDI", salaire := none, date_publication := .intv 123,
    match_score := none }

/-- A dynamic record whose location holds a non-string, so scoring raises. -/
def jobBadLoc : JobD :=
  { titre := "Python Dev", description := "Backend", localisation := .intv 5,
    type_contrat := "CDI", salaire := none, date_publication := .missing,
    match_score := none }

/-- A well-behaved dynamic record matching the fixture preferences. -/
def jobGoodD : JobD :=
  { titre := "Python Dev", description := "Backend", localisation := .strv "Paris",
    type_contrat := "CDI", salaire := some "45 000 €",
    date_publication := .missing, match_score := none }

/-- `jobA` dated 8 days before `now0`. -/
def job8 : Job :=
  { titre := "Python Dev", description := "Backend", localisation := "Paris",
    type_contrat := "CDI", salaire := some "45 000 €",
    date_publication := some "2026-10-04", match_score := none }

/-- `jobA` with no publication date. -/
def jobNoDate : Job :=
  { titre := "Python Dev", description := "Backend", localisation := "Paris",
    type_contrat := "CDI", salaire := some "45 000 €",
    date_publication := none, match_score := none }

/-- `jobA` with an unparsable publication date. -/
def jobBadDateStr : Job :=
  { titre := "Python Dev", description := "Backend", localisation := "Paris",
    type_contrat := "CDI", salaire := some "45 000 €",
    date_publication := some "not-a-date", match_score := none }

/-- `jobA` with a non-numeric salary text. -/
def jobComp : Job :=
  { titre := "Python Dev", description := "Backend", localisation := "Paris",
    type_contrat := "CDI", salaire := some "competitive",
    date_publication := some "2026-10-05", match_score := none }

/-- `jobA` located at `"Pariis"` (single-character typo). -/
def jobPariis : Job :=
  { titre := "Python Dev", description := "Backend", localisation := "Pariis",
    type_contrat := "CDI", salaire := some "45 000 €",
    date_publication := some "2026-10-05", match_score := none }

/-- `jobA` with no location text. -/
def jobNoLoc : Job :=
  { titre := "Python Dev", description := "Backend", localisation := "",
    type_contrat := "CDI", salaire := some "45 000 €",
    date_publication := some "2026-10-05", match_score := none }

/-- Preferences whose only configured key is the location `"Paris"`. -/
def prefsParis : Prefs :=
  { stack_technique := [], localisation := ["Paris"], type_contrat := [],
    salaire_min := 0, mots_cles := [] }

/-- Preferences whose location list contains a remote entry. -/
def prefsRemote : Prefs :=
  { stack_technique := [], localisation := ["Full Remote"], type_contrat := [],
    salaire_min := 0, mots_cles := [] }

/-- The gate filter with the 0.30 safety-floor check removed; used to state
that the floor check is unreachable on the output of the scoring stage. -/
def apply_strict_filters_noFloor (p : Prefs) (l : List Job) : List Job :=
  l.filter fun j => has_required_keywords p j && meets_location_requirement p j

/-! ### General lemmas -/

/-- Lowering a string is empty iff the string is empty (the code tests
falsiness only after `.lower()`). -/
theorem pyLower_eq_empty_iff (s : String) : pyLower s = "" ↔ s = "" := by
  constructor
  · intro h
    have hd := congrArg String.data h
    simp only [pyLower] at hd
    rcases s with ⟨l⟩
    simp only [String.toList] at hd
    cases l with
    | nil => rfl
    | cons c cs => simp at hd
  · intro h
    subst h
    rfl

/-- The keyword sub-score lies in `[0, 1]`. -/
theorem keyword_score_bounds (p : Prefs) (j : Job) :
    0 ≤ calculate_keyword_score p j ∧ calculate_keyword_score p j ≤ 1 := by
  unfold calculate_keyword_score
  split
  · norm_num
  · rename_i h
    have hne : p.stack_technique ≠ [] := by
      simpa [List.isEmpty_iff] using h
    have hlen : 0 < (p.stack_technique.length : ℚ) := by
      exact_mod_cast List.length_pos.mpr hne
    constructor
    · exact div_nonneg (Nat.cast_nonneg _) (le_of_lt hlen)
    · rw [div_le_one hlen]
      exact_mod_cast List.countP_le_length _

/-- The location sub-score lies in `[0, 1]`. -/
theorem location_score_bounds (p : Prefs) (j : Job) :
    0 ≤ calculate_location_score p j ∧ calculate_location_score p j ≤ 1 := by
  simp only [calculate_location_score]
  split_ifs <;> norm_num

/-- The contract sub-score lies in `[0, 1]`. -/
theorem contract_score_bounds (p : Prefs) (j : Job) :
    0 ≤ calculate_contract_score p j ∧ calculate_contract_score p j ≤ 1 := by
  simp only [calculate_contract_score]
  split_ifs <;> norm_num

/-- The salary sub-score lies in `[0, 1]`. -/
theorem salary_score_bounds (p : Prefs) (j : Job) :
    0 ≤ calculate_salary_score p j ∧ calculate_salary_score p j ≤ 1 := by
  simp only [calculate_salary_score]
  split
  · norm_num
  · split
    · norm_num
    · split_ifs
      · norm_num
      · split
        · norm_num
        · split_ifs <;> norm_num

/-- The company sub-score lies in `[0, 1]`. -/
theorem company_score_bounds (j : Job) :
    0 ≤ calculate_company_score j ∧ calculate_company_score j ≤ 1 := by
  unfold calculate_company_score
  norm_num

/-- The final match score lies in `[0, 1]`. -/
theorem match_score_bounds (p : Prefs) (j : Job) :
    0 ≤ calculate_match_score p j ∧ calculate_match_score p j ≤ 1 := by
  unfold calculate_match_score
  constructor
  · refine le_min ?_ (by norm_num)
    have h1 := keyword_score_bounds p j
    have h2 := location_score_bounds p j
    have h3 := contract_score_bounds p j
    have h4 := salary_score_bounds p j
    have h5 := company_score_bounds j
    nlinarith [h1.1, h2.1, h3.1, h4.1, h5.1]
  · exact min_le_right _ _

/-- `scoreKey` of a freshly scored record is the score that was written. -/
theorem scoreKey_setScore (j : Job) (s : ℚ) : scoreKey (setScore j s) = s := rfl

/-- Membership in a stable descending insertion. -/
theorem mem_insertDesc {x j : Job} {l : List Job} :
    x ∈ insertDesc j l ↔ x = j ∨ x ∈ l := by
  induction l with
  | nil => simp [insertDesc]
  | cons a as ih =>
    unfold insertDesc
    split
    · simp only [List.mem_cons, ih]
      tauto
    · simp [List.mem_cons]

/-- The stable sort does not change membership. -/
theorem mem_sortByScoreDesc {x : Job} {l : List Job} :
    x ∈ sortByScoreDesc l ↔ x ∈ l := by
  induction l with
  | nil => simp [sortByScoreDesc]
  | cons a as ih =>
    unfold sortByScoreDesc
    rw [mem_insertDesc, ih, List.mem_cons]

/-- Any job in the scored stage comes from a recent input job, carries its
match score (which is at least 0.6), and is otherwise unchanged. -/
theorem scored_jobs_spec {p : Prefs} {now : Nat} {jobs : List Job} {j : Job}
    (h : j ∈ scored_jobs p now jobs) :
    ∃ j0, j0 ∈ jobs ∧ is_job_recent now j0 = true ∧
      (6:ℚ)/10 ≤ calculate_match_score p j0 ∧
      j = setScore j0 (calculate_match_score p j0) := by
  unfold scored_jobs at h
  rcases List.mem_filterMap.mp h with ⟨a, ha, hfa⟩
  rcases List.mem_filter.mp ha with ⟨hmem, hrec⟩
  refine ⟨a, hmem, hrec, ?_, ?_⟩ <;>
  · simp only at hfa
    split at hfa
    · simp only [Option.some.injEq] at hfa
      first
      | assumption
      | exact hfa.symm
    · exact absurd hfa (by simp)

/-- Any job in the final output has score key at least 0.6. -/
theorem mem_filter_jobs_ge {p : Prefs} {now : Nat} {jobs : List Job} {j : Job}
    (h : j ∈ filter_jobs p now jobs) : (6:ℚ)/10 ≤ scoreKey j := by
  unfold filter_jobs apply_strict_filters at h
  have h1 := List.mem_of_mem_filter h
  have h2 := mem_sortByScoreDesc.mp h1
  rcases scored_jobs_spec h2 with ⟨j0, _, _, hge, hj⟩
  rw [hj, scoreKey_setScore]
  exact hge

/-- Every job in the sorted scored stage has score key at least 0.6. -/
theorem mem_sorted_scored_ge {p : Prefs} {now : Nat} {jobs : List Job} {j : Job}
    (h : j ∈ sortByScoreDesc (scored_jobs p now jobs)) : (6:ℚ)/10 ≤ scoreKey j := by
  rcases scored_jobs_spec (mem_sortByScoreDesc.mp h) with ⟨j0, _, _, hge, hj⟩
  rw [hj, scoreKey_setScore]
  exact hge

/-- Inserting into a descending-sorted list keeps it descending-sorted. -/
theorem pairwise_insertDesc {j : Job} {l : List Job}
    (h : l.Pairwise fun a b => scoreKey b ≤ scoreKey a) :
    (insertDesc j l).Pairwise fun a b => scoreKey b ≤ scoreKey a := by
  induction l with
  | nil => simp [insertDesc]
  | cons a as ih =>
    rcases List.pairwise_cons.mp h with ⟨ha, has⟩
    unfold insertDesc
    split
    · rename_i hlt
      refine List.pairwise_cons.mpr ⟨?_, ih has⟩
      intro y hy
      rcases mem_insertDesc.mp hy with rfl | hy2
      · exact le_of_lt hlt
      · exact ha y hy2
    · rename_i hnlt
      refine List.pairwise_cons.mpr ⟨?_, h⟩
      intro y hy
      rcases List.mem_cons.mp hy with rfl | hy2
      · exact le_of_not_lt hnlt
      · exact le_trans (ha y hy2) (le_of_not_lt hnlt)

/-- The stable sort produces a descending-sorted list. -/
theorem pairwise_sortByScoreDesc (l : List Job) :
    (sortByScoreDesc l).Pairwise fun a b => scoreKey b ≤ scoreKey a := by
  induction l with
  | nil => simp [sortByScoreDesc]
  | cons a as ih => exact pairwise_insertDesc ih

/-- Stability of the insertion: the subsequence of entries with any given
score value is unchanged, because insertion only walks past strictly greater
scores. -/
theorem filter_insertDesc (c : ℚ) (j : Job) (l : List Job) :
    (insertDesc j l).filter (fun x => decide (scoreKey x = c)) =
      if scoreKey j = c then j :: l.filter (fun x => decide (scoreKey x = c))
      else l.filter (fun x => decide (scoreKey x = c)) := by
  induction l with
  | nil =>
    by_cases hj : scoreKey j = c <;> simp [insertDesc, List.filter_cons, hj]
  | cons a as ih =>
    unfold insertDesc
    split
    · rename_i hlt
      rw [List.filter_cons, ih]
      by_cases hj : scoreKey j = c
      · have ha : ¬ (scoreKey a = c) := by
          intro hac
          rw [hj] at hlt
          rw [hac] at hlt
          exact lt_irrefl _ hlt
        simp [hj, ha, List.filter_cons]
      · simp [hj, List.filter_cons]
    · rw [List.filter_cons]
      by_cases hj : scoreKey j = c
      · simp [hj, List.filter_cons]
      · simp [hj, List.filter_cons]

/-- Stability of the whole sort: for every score value `c`, the entries
scoring exactly `c` appear in the sorted list in their original relative
order. -/
theorem filter_sortByScoreDesc (c : ℚ) (l : List Job) :
    (sortByScoreDesc l).filter (fun x => decide (scoreKey x = c)) =
      l.filter (fun x => decide (scoreKey x = c)) := by
  induction l with
  | nil => rfl
  | cons a as ih =>
    unfold sortByScoreDesc
    rw [filter_insertDesc, ih, List.filter_cons]
    by_cases hj : scoreKey a = c <;> simp [hj]

/-! ### Concrete-run evaluation helpers -/

/-- Evaluation of the scoring stage on a single recent, accepted job. -/
theorem scored_jobs_single {p : Prefs} {now : Nat} {j : Job} {v : ℚ}
    (hr : is_job_recent now j = true)
    (hs : calculate_match_score p j = v) (hv : (6:ℚ)/10 ≤ v) :
    scored_jobs p now [j] = [setScore j v] := by
  unfold scored_jobs
  rw [List.filter_cons]
  simp only [hr, if_true, List.filter_nil]
  rw [List.filterMap_cons_some, List.filterMap_nil]
  simp only [hs]
  rw [if_pos hv]

/-- The strict gate keeps a job passing all three checks. -/
theorem apply_strict_filters_cons_keep {p : Prefs} {j : Job} {l : List Job}
    (h1 : ¬ scoreKey j < 3/10)
    (h2 : has_required_keywords p j = true)
    (h3 : meets_location_requirement p j = true) :
    apply_strict_filters p (j :: l) = j :: apply_strict_filters p l := by
  unfold apply_strict_filters
  rw [List.filter_cons]
  simp [h1, h2, h3]

/-- The strict gate drops a job missing every mandatory keyword. -/
theorem apply_strict_filters_cons_dropkw {p : Prefs} {j : Job} {l : List Job}
    (h2 : has_required_keywords p j = false) :
    apply_strict_filters p (j :: l) = apply_strict_filters p l := by
  unfold apply_strict_filters
  rw [List.filter_cons]
  simp [h2]

/-- Full pipeline on one accepted job. -/
theorem filter_jobs_single_keep {p : Prefs} {now : Nat} {j : Job} {v : ℚ}
    (hr : is_job_recent now j = true)
    (hs : calculate_match_score p j = v) (hv : (6:ℚ)/10 ≤ v)
    (h1 : ¬ v < 3/10)
    (h2 : has_required_keywords p (setScore j v) = true)
    (h3 : meets_location_requirement p (setScore j v) = true) :
    filter_jobs p now [j] = [setScore j v] := by
  unfold filter_jobs
  rw [scored_jobs_single hr hs hv]
  show apply_strict_filters p (insertDesc (setScore j v) []) = _
  unfold insertDesc
  rw [apply_strict_filters_cons_keep (by rw [scoreKey_setScore]; exact h1) h2 h3]
  rfl

/-- Full pipeline on one job that fails the mandatory-keyword gate. -/
theorem filter_jobs_single_gate {p : Prefs} {now : Nat} {j : Job} {v : ℚ}
    (hr : is_job_recent now j = true)
    (hs : calculate_match_score p j = v) (hv : (6:ℚ)/10 ≤ v)
    (h2 : has_required_keywords p (setScore j v) = false) :
    filter_jobs p now [j] = [] := by
  unfold filter_jobs
  rw [scored_jobs_single hr hs hv]
  show apply_strict_filters p (insertDesc (setScore j v) []) = _
  unfold insertDesc
  rw [apply_strict_filters_cons_dropkw h2]
  rfl

/-- `_fuzzy_match` unfolded to the similarity bound it decides. -/
theorem fuzzy_match_iff (a b : String) :
    fuzzy_match a b = true ↔ (8:ℚ)/10 ≤ sequenceSimilarity a.toList b.toList := by
  simp [fuzzy_match]

/-- `jobA` scores 0.65 under `prefsGate`. -/
theorem match_score_gate_eval : calculate_match_score prefsGate jobA = 13/20 := by
  norm_num +decide [calculate_match_score, calculate_keyword_score,
    calculate_location_score, calculate_contract_score, calculate_salary_score,
    calculate_company_score, job_text, prefsGate, jobA, min_def]

/-- `jobA` scores 0.65 under `prefsOpen`. -/
theorem match_score_open_eval : calculate_match_score prefsOpen jobA = 13/20 := by
  norm_num +decide [calculate_match_score, calculate_keyword_score,
    calculate_location_score, calculate_contract_score, calculate_salary_score,
    calculate_company_score, job_text, prefsOpen, jobA, min_def]

/-- Under `prefsGate` the 0.65-scoring `jobA` is dropped by the keyword gate. -/
theorem filter_jobs_gate_eval : filter_jobs prefsGate now0 [jobA] = [] :=
  filter_jobs_single_gate (by decide) match_score_gate_eval (by norm_num) (by decide)

/-- Under `prefsOpen` the pipeline returns `jobA` scored 0.65. -/
theorem filter_jobs_open_eval :
    filter_jobs prefsOpen now0 [jobA] = [setScore jobA (13/20)] :=
  filter_jobs_single_keep (by decide) match_score_open_eval (by norm_num)
    (by norm_num) (by decide) (by decide)

/-- All four preference-driven sub-scores of `jobA` under `prefsPerfect` are 1. -/
theorem perfect_sub_scores_eval :
    calculate_keyword_score prefsPerfect jobA = 1 ∧
    calculate_location_score prefsPerfect jobA = 1 ∧
    calculate_contract_score prefsPerfect jobA = 1 ∧
    calculate_salary_score prefsPerfect jobA = 1 := by
  norm_num +decide [calculate_keyword_score, calculate_location_score,
    calculate_contract_score, calculate_salary_score, job_text, prefsPerfect, jobA]

/-! ### Claims -/

/-- Claim C1 (corrected): at a listing matching the preferences perfectly on
location, contract, keywords and salary, the final score is not 1.0 — the
company sub-score is the constant 0.5 with weight 0.1, so the total is 0.95. -/
theorem C1_counterexample :
    calculate_keyword_score prefsPerfect jobA = 1 ∧
    calculate_location_score prefsPerfect jobA = 1 ∧
    calculate_contract_score prefsPerfect jobA = 1 ∧
    calculate_salary_score prefsPerfect jobA = 1 ∧
    calculate_match_score prefsPerfect jobA ≠ 1 := by
  obtain ⟨h1, h2, h3, h4⟩ := perfect_sub_scores_eval
  refine ⟨h1, h2, h3, h4, ?_⟩
  unfold calculate_match_score calculate_company_score
  rw [h1, h2, h3, h4]
  norm_num [min_def]

/-- Claim C1 (amended): for every listing whose location, contract type and
keyword sub-scores are 1.0 and whose salary sub-score is 1.0 (extracted salary
at least the configured minimum), `_calculate_match_score` returns exactly
0.95, the company sub-score being the constant neutral 0.5. -/
theorem C1_perfect_match_score (p : Prefs) (j : Job)
    (hk : calculate_keyword_score p j = 1)
    (hl : calculate_location_score p j = 1)
    (hc : calculate_contract_score p j = 1)
    (hs : calculate_salary_score p j = 1) :
    calculate_match_score p j = 19/20 := by
  unfold calculate_match_score calculate_company_score
  rw [hk, hl, hc, hs]
  norm_num [min_def]

/-- Witness for C1: the amended theorem applied to `prefsPerfect` and `jobA`. -/
theorem C1_perfect_match_score_witness :
    calculate_match_score prefsPerfect jobA = 19/20 :=
  C1_perfect_match_score prefsPerfect jobA
    perfect_sub_scores_eval.1 perfect_sub_scores_eval.2.1
    perfect_sub_scores_eval.2.2.1 perfect_sub_scores_eval.2.2.2

/-- Claim C3 (confirmed): with no preferences configured at all, every
listing's match score is exactly 0.5. -/
theorem C3_no_preferences_half (j : Job) :
    calculate_match_score ⟨[], [], [], 0, []⟩ j = 1/2 := by
  unfold calculate_match_score calculate_keyword_score calculate_location_score
    calculate_contract_score calculate_salary_score calculate_company_score
  norm_num [min_def]

/-- Claim C2 (confirmed): each of the five sub-scores lies in `[0,1]`, the
weighted, clamped total lies in `[0,1]`, and every record in the output of
`filter_jobs` carries a `match_score` in `[0,1]`. -/
theorem C2_scores_in_unit_interval :
    (∀ (p : Prefs) (j : Job),
      (0 ≤ calculate_keyword_score p j ∧ calculate_keyword_score p j ≤ 1) ∧
      (0 ≤ calculate_location_score p j ∧ calculate_location_score p j ≤ 1) ∧
      (0 ≤ calculate_contract_score p j ∧ calculate_contract_score p j ≤ 1) ∧
      (0 ≤ calculate_salary_score p j ∧ calculate_salary_score p j ≤ 1) ∧
      (0 ≤ calculate_company_score j ∧ calculate_company_score j ≤ 1)) ∧
    (∀ (p : Prefs) (j : Job),
      0 ≤ calculate_match_score p j ∧ calculate_match_score p j ≤ 1) ∧
    (∀ (p : Prefs) (now : Nat) (jobs : List Job) (j : Job),
      j ∈ filter_jobs p now jobs → ∃ s, j.match_score = some s ∧ 0 ≤ s ∧ s ≤ 1) := by
  refine ⟨fun p j => ⟨keyword_score_bounds p j, location_score_bounds p j,
      contract_score_bounds p j, salary_score_bounds p j, company_score_bounds j⟩,
    fun p j => match_score_bounds p j, ?_⟩
  intro p now jobs j h
  unfold filter_jobs apply_strict_filters at h
  have h1 := mem_sortByScoreDesc.mp (List.mem_of_mem_filter h)
  rcases scored_jobs_spec h1 with ⟨j0, _, _, _, rfl⟩
  exact ⟨_, rfl, (match_score_bounds p j0).1, (match_score_bounds p j0).2⟩

/-- Witness for C2: a concrete pipeline output record with its score in
`[0,1]`. -/
theorem C2_scores_in_unit_interval_witness :
    (setScore jobA (13/20)) ∈ filter_jobs prefsOpen now0 [jobA] ∧
    ∃ s, (setScore jobA (13/20)).match_score = some s ∧ 0 ≤ s ∧ s ≤ 1 := by
  have hm : (setScore jobA (13/20)) ∈ filter_jobs prefsOpen now0 [jobA] := by
    rw [filter_jobs_open_eval]
    exact List.mem_singleton.mpr rfl
  exact ⟨hm, C2_scores_in_unit_interval.2.2 prefsOpen now0 [jobA] _ hm⟩

/-- Claim C4 (confirmed): a listing with no publication date is recent; an
unparsable date is recent; a parsed date is recent iff it is at most 7 days
old; dated exactly 7 days before now ⇒ included, 8 days ⇒ excluded. -/
theorem C4_recency :
    (∀ (now : Nat) (j : Job), j.date_publication = none → is_job_recent now j = true) ∧
    (∀ (now : Nat) (j : Job) (s : String), j.date_publication = some s → s ≠ "" →
      parseDate s = none → is_job_recent now j = true) ∧
    (∀ (now : Nat) (j : Job) (s : String) (y m d : Nat), j.date_publication = some s →
      parseDate s = some (y, m, d) →
      (is_job_recent now j = true ↔ (now : ℤ) - (dateToDays y m d : ℤ) ≤ 7)) ∧
    ((now0 : ℤ) - (dateToDays 2026 10 5 : ℤ) = 7 ∧
      jobA.date_publication = some "2026-10-05" ∧ is_job_recent now0 jobA = true) ∧
    ((now0 : ℤ) - (dateToDays 2026 10 4 : ℤ) = 8 ∧
      job8.date_publication = some "2026-10-04" ∧ is_job_recent now0 job8 = false) := by
  refine ⟨?_, ?_, ?_, ⟨by decide, rfl, by decide⟩, ⟨by decide, rfl, by decide⟩⟩
  · intro now j h
    simp [is_job_recent, h]
  · intro now j s hd hne hp
    simp [is_job_recent, hd, recentStr, hne, hp]
  · intro now j s y m d hd hp
    have hne : s ≠ "" := by
      intro he
      have h0 : parseDate "" = none := by decide
      rw [he, h0] at hp
      cases hp
    simp [is_job_recent, hd, recentStr, hne, hp]

/-- Witness for C4: the general recency cases applied to concrete listings. -/
theorem C4_recency_witness :
    is_job_recent now0 jobNoDate = true ∧
    is_job_recent now0 jobBadDateStr = true ∧
    (is_job_recent now0 jobA = true ↔ (now0 : ℤ) - (dateToDays 2026 10 5 : ℤ) ≤ 7) :=
  ⟨C4_recency.1 now0 jobNoDate rfl,
   C4_recency.2.1 now0 jobBadDateStr "not-a-date" rfl (by decide) (by decide),
   C4_recency.2.2.1 now0 jobA "2026-10-05" 2026 10 5 rfl (by decide)⟩

/-- Claim C5 (confirmed): the three documented salary extractions, and a 0.3
salary sub-score whenever extraction yields no value while a positive minimum
is configured. -/
theorem C5_salary_extraction :
    extract_salary_value "45 000 €" = some 45000 ∧
    extract_salary_value "45K" = some 45000 ∧
    extract_salary_value "competitive" = none ∧
    (∀ (p : Prefs) (j : Job) (s : String), 0 < p.salaire_min → j.salaire = some s →
      s ≠ "" → extract_salary_value s = none → calculate_salary_score p j = 3/10) := by
  refine ⟨by decide, by decide, by decide, ?_⟩
  intro p j s hmin hsal hne hext
  simp [calculate_salary_score, hsal, hne, hext, not_le.mpr hmin]

/-- Witness for C5: the unparsable-salary case at a concrete listing. -/
theorem C5_salary_extraction_witness :
    0 < prefsPerfect.salaire_min ∧ jobComp.salaire = some "competitive" ∧
    calculate_salary_score prefsPerfect jobComp = 3/10 :=
  ⟨by norm_num [prefsPerfect], rfl,
   C5_salary_extraction.2.2.2 prefsPerfect jobComp "competitive"
     (by norm_num [prefsPerfect]) rfl (by decide) (by decide)⟩

/-- Claim C6 (confirmed): the location sub-score is 0.5 with no preferences,
0.3 with no listing location, 1.0 on a case-insensitive substring hit, 0.8 on
a fuzzy hit (similarity at least 0.8) when no substring hits, 0.2 otherwise;
and preferred `"Paris"` against listing location `"Pariis"` scores 0.8. -/
theorem C6_location_score :
    (∀ (p : Prefs) (j : Job), p.localisation = [] →
      calculate_location_score p j = 1/2) ∧
    (∀ (p : Prefs) (j : Job), p.localisation ≠ [] → j.localisation = "" →
      calculate_location_score p j = 3/10) ∧
    (∀ (p : Prefs) (j : Job), p.localisation ≠ [] → j.localisation ≠ "" →
      ((∃ l ∈ p.localisation, pyIn (pyLower l) (pyLower j.localisation) = true) →
        calculate_location_score p j = 1) ∧
      ((∀ l ∈ p.localisation, pyIn (pyLower l) (pyLower j.localisation) = false) →
        ((∃ l ∈ p.localisation, (8:ℚ)/10 ≤
            sequenceSimilarity (pyLower l).toList (pyLower j.localisation).toList) →
          calculate_location_score p j = 8/10) ∧
        ((∀ l ∈ p.localisation, ¬ ((8:ℚ)/10 ≤
            sequenceSimilarity (pyLower l).toList (pyLower j.localisation).toList)) →
          calculate_location_score p j = 1/5))) ∧
    calculate_location_score prefsParis jobPariis = 8/10 := by
  refine ⟨?_, ?_, ?_, ?_⟩
  · intro p j h
    simp [calculate_location_score, h]
  · intro p j hne hloc
    have h0 : pyLower j.localisation = "" := by rw [hloc]; rfl
    have hb : p.localisation.isEmpty = false := by simp [hne]
    simp [calculate_location_score, hb, h0]
  · intro p j hne hnloc
    have hb : p.localisation.isEmpty = false := by simp [hne]
    have h0 : ¬ (pyLower j.localisation = "") := fun h =>
      hnloc ((pyLower_eq_empty_iff _).mp h)
    refine ⟨?_, ?_⟩
    · intro hsub
      have hany : (p.localisation.any fun l =>
          pyIn (pyLower l) (pyLower j.localisation)) = true :=
        List.any_eq_true.mpr hsub
      simp [calculate_location_score, hb, h0, hany]
    · intro hnosub
      have hany1 : (p.localisation.any fun l =>
          pyIn (pyLower l) (pyLower j.localisation)) = false := by
        simp only [List.any_eq_false]
        intro x hx
        simp [hnosub x hx]
      refine ⟨?_, ?_⟩
      · intro hfz
        rcases hfz with ⟨l, hl, hsim⟩
        have hany2 : (p.localisation.any fun l =>
            fuzzy_match (pyLower l) (pyLower j.localisation)) = true :=
          List.any_eq_true.mpr ⟨l, hl, (fuzzy_match_iff _ _).mpr hsim⟩
        simp [calculate_location_score, hb, h0, hany1, hany2]
      · intro hnofz
        have hany2 : (p.localisation.any fun l =>
            fuzzy_match (pyLower l) (pyLower j.localisation)) = false := by
          simp only [List.any_eq_false]
          intro x hx
          simp only [Bool.not_eq_true]
          rw [← Bool.not_eq_true]
          intro hc
          exact hnofz x hx ((fuzzy_match_iff _ _).mp hc)
        simp [calculate_location_score, hb, h0, hany1, hany2]
  · have h5 : matchTotal "paris".toList "pariis".toList = 5 := by decide
    have hf : fuzzy_match (pyLower "Paris") (pyLower "Pariis") = true := by
      rw [show pyLower "Paris" = "paris" from by decide,
          show pyLower "Pariis" = "pariis" from by decide, fuzzy_match_iff,
          sequenceSimilarity, h5]
      norm_num
    have hb : prefsParis.localisation.isEmpty = false := by decide
    have h0 : ¬ (pyLower jobPariis.localisation = "") := by decide
    have hany1 : (prefsParis.localisation.any fun l =>
        pyIn (pyLower l) (pyLower jobPariis.localisation)) = false := by decide
    have hany2 : (prefsParis.localisation.any fun l =>
        fuzzy_match (pyLower l) (pyLower jobPariis.localisation)) = true := by
      simp only [prefsParis, List.any_cons, List.any_nil, Bool.or_false]
      exact hf
    simp [calculate_location_score, hb, h0, hany1, hany2]

/-- Witness for C6: the main case split applied at the typo fixture. -/
theorem C6_location_score_witness :
    calculate_location_score prefsParis jobPariis = 8/10 ∧
    calculate_location_score prefsParis jobNoLoc = 3/10 :=
  ⟨C6_location_score.2.2.2,
   C6_location_score.2.1 prefsParis jobNoLoc (by decide) rfl⟩

/-- Claim C7 (confirmed): the gate filter excludes independently of score — a
0.65-scoring listing lacking every mandatory keyword is absent from the final
output — and the location gate passes everything when a remote entry is
preferred, passes listings with no location text, and otherwise requires a
substring hit. -/
theorem C7_gate :
    (∀ (p : Prefs) (now : Nat) (jobs : List Job) (j : Job),
      j ∈ filter_jobs p now jobs →
      (p.mots_cles = [] ∨ ∃ k ∈ p.mots_cles, pyIn (pyLower k) (job_text j) = true)) ∧
    (calculate_match_score prefsGate jobA = 13/20 ∧
      (∀ k ∈ prefsGate.mots_cles, pyIn (pyLower k) (job_text jobA) = false) ∧
      filter_jobs prefsGate now0 [jobA] = []) ∧
    (∀ (p : Prefs) (j : Job),
      (∃ l ∈ p.localisation, pyIn "remote" (pyLower l) = true) →
      meets_location_requirement p j = true) ∧
    (∀ (p : Prefs) (j : Job), j.localisation = "" →
      meets_location_requirement p j = true) ∧
    (∀ (p : Prefs) (j : Job), p.localisation ≠ [] →
      (∀ l ∈ p.localisation, pyIn "remote" (pyLower l) = false) →
      j.localisation ≠ "" →
      (meets_location_requirement p j = true ↔
        ∃ l ∈ p.localisation, pyIn (pyLower l) (pyLower j.localisation) = true)) := by
  refine ⟨?_, ⟨match_score_gate_eval, by decide, filter_jobs_gate_eval⟩, ?_, ?_, ?_⟩
  · intro p now jobs j h
    unfold filter_jobs apply_strict_filters at h
    have hp := (List.mem_filter.mp h).2
    simp only [Bool.and_eq_true] at hp
    have hkw := hp.1.2
    unfold has_required_keywords at hkw
    rcases Bool.or_eq_true _ _ ▸ hkw with h1 | h2
    · exact Or.inl (List.isEmpty_iff.mp h1)
    · exact Or.inr (List.any_eq_true.mp h2)
  · intro p j h
    have hany : (p.localisation.any fun x => pyIn "remote" (pyLower x)) = true :=
      List.any_eq_true.mpr h
    simp [meets_location_requirement, hany]
  · intro p j hloc
    have h0 : pyLower j.localisation = "" := by rw [hloc]; rfl
    simp [meets_location_requirement, h0]
  · intro p j hne hnor hnloc
    have hb : p.localisation.isEmpty = false := by simp [hne]
    have hany : (p.localisation.any fun x => pyIn "remote" (pyLower x)) = false := by
      simp only [List.any_eq_false]
      intro x hx
      simp [hnor x hx]
    have h0 : ¬ (pyLower j.localisation = "") := fun h =>
      hnloc ((pyLower_eq_empty_iff _).mp h)
    simp [meets_location_requirement, hb, hany, h0, List.any_eq_true]

/-- Witness for C7: the gate facts applied at concrete listings. -/
theorem C7_gate_witness :
    (prefsOpen.mots_cles = [] ∨ ∃ k ∈ prefsOpen.mots_cles,
      pyIn (pyLower k) (job_text (setScore jobA (13/20))) = true) ∧
    meets_location_requirement prefsRemote jobPariis = true ∧
    meets_location_requirement prefsParis jobNoLoc = true ∧
    (meets_location_requirement prefsParis jobPariis = true ↔
      ∃ l ∈ prefsParis.localisation,
        pyIn (pyLower l) (pyLower jobPariis.localisation) = true) := by
  refine ⟨C7_gate.1 prefsOpen now0 [jobA] _ ?_, ?_, ?_, ?_⟩
  · rw [filter_jobs_open_eval]
    exact List.mem_singleton.mpr rfl
  · exact C7_gate.2.2.1 prefsRemote jobPariis (by decide)
  · exact C7_gate.2.2.2.1 prefsParis jobNoLoc rfl
  · exact C7_gate.2.2.2.2 prefsParis jobPariis (by decide) (by decide) (by decide)

/-- Claim C8 (confirmed): the output is sorted by score descending, equal
scores keep their relative order from the scoring stage (which preserves
input order), and the gate filter is a sublist of the sorted list, so it
preserves the ranked order. -/
theorem C8_ranking (p : Prefs) (now : Nat) (jobs : List Job) :
    (filter_jobs p now jobs).Pairwise (fun a b => scoreKey b ≤ scoreKey a) ∧
    (∀ c : ℚ, (sortByScoreDesc (scored_jobs p now jobs)).filter
        (fun x => decide (scoreKey x = c)) =
      (scored_jobs p now jobs).filter (fun x => decide (scoreKey x = c))) ∧
    List.Sublist (filter_jobs p now jobs) (sortByScoreDesc (scored_jobs p now jobs)) := by
  refine ⟨?_, fun c => filter_sortByScoreDesc c _, ?_⟩
  · unfold filter_jobs apply_strict_filters
    exact List.Pairwise.sublist (List.filter_sublist _) (pairwise_sortByScoreDesc _)
  · unfold filter_jobs apply_strict_filters
    exact List.filter_sublist _

/-- Claim C10 (confirmed): every output record scores at least 0.6, and
removing the 0.30 safety-floor check from the gate filter does not change the
output of `filter_jobs` — the floor branch is unreachable there. -/
theorem C10_threshold :
    (∀ (p : Prefs) (now : Nat) (jobs : List Job) (j : Job),
      j ∈ filter_jobs p now jobs → (6:ℚ)/10 ≤ scoreKey j) ∧
    (∀ (p : Prefs) (now : Nat) (jobs : List Job),
      filter_jobs p now jobs =
        apply_strict_filters_noFloor p (sortByScoreDesc (scored_jobs p now jobs))) := by
  refine ⟨fun p now jobs j h => mem_filter_jobs_ge h, ?_⟩
  intro p now jobs
  unfold filter_jobs apply_strict_filters apply_strict_filters_noFloor
  apply List.filter_congr
  intro a ha
  have h6 := mem_sorted_scored_ge ha
  have hf : decide (scoreKey a < 3/10) = false := by
    simp only [decide_eq_false_iff_not]
    intro hlt
    linarith
  rw [hf]
  simp

/-- Witness for C10: the score bound at a concrete output record. -/
theorem C10_threshold_witness : (6:ℚ)/10 ≤ scoreKey (setScore jobA (13/20)) :=
  C10_threshold.1 prefsOpen now0 [jobA] _
    (by rw [filter_jobs_open_eval]; exact List.mem_singleton.mpr rfl)

/-! ### Lemmas for the dynamic (exception) model -/

/-- Bind of a raised exception. -/
theorem exceptBind_error {α β : Type} (f : α → Except Unit β) :
    (Except.error () >>= f) = Except.error () := rfl

/-- Bind of a normal result. -/
theorem exceptBind_ok {α β : Type} (a : α) (f : α → Except Unit β) :
    (Except.ok a >>= f) = f a := rfl

/-- `isOk` on the two constructors. -/
@[simp]
theorem isOk_ok {α : Type} (a : α) : (Except.ok a : Except Unit α).isOk = true := rfl

/-- `isOk` of a raised exception is false. -/
@[simp]
theorem isOk_error {α : Type} : (Except.error () : Except Unit α).isOk = false := rfl

/-- The recency loop succeeds when no record's recency check raises, and
returns a sublist of the input (as a set). -/
theorem recent_filterD_ok {now : Nat} {jobs : List JobD}
    (h : ∀ j ∈ jobs, (is_job_recentD now j).isOk = true) :
    ∃ l, recent_filterD now jobs = Except.ok l ∧ ∀ j ∈ l, j ∈ jobs := by
  induction jobs with
  | nil => exact ⟨[], rfl, by simp⟩
  | cons a as ih =>
    have ha := h a (List.mem_cons_self a as)
    obtain ⟨b, hb⟩ : ∃ b, is_job_recentD now a = Except.ok b := by
      cases hrec : is_job_recentD now a with
      | ok b => exact ⟨b, rfl⟩
      | error e =>
        rw [hrec] at ha
        cases e
        rw [isOk_error] at ha
        cases ha
    obtain ⟨l, hl, hsub⟩ := ih fun j hj => h j (List.mem_cons_of_mem a hj)
    refine ⟨if b then a :: l else l, ?_, ?_⟩
    · show (is_job_recentD now a >>= fun b =>
          recent_filterD now as >>= fun rest =>
            pure (if b then a :: rest else rest)) = _
      rw [hb, exceptBind_ok, hl, exceptBind_ok]
      rfl
    · intro j hj
      cases b with
      | true =>
        simp only [if_true] at hj
        rcases List.mem_cons.mp hj with rfl | hj2
        · exact List.mem_cons_self _ _
        · exact List.mem_cons_of_mem _ (hsub j hj2)
      | false =>
        simp only [Bool.false_eq_true, if_false] at hj
        exact List.mem_cons_of_mem _ (hsub j hj)

/-- Writing the score does not change how a dynamic record scores. -/
theorem match_scoreD_setScoreD (p : Prefs) (j : JobD) (s : ℚ) :
    calculate_match_scoreD p (setScoreD j s) = calculate_match_scoreD p j := rfl

/-- Records surviving the dynamic scoring stage scored without raising, at
least 0.6. -/
theorem mem_scored_jobsD {p : Prefs} {l : List JobD} {j : JobD}
    (h : j ∈ scored_jobsD p l) :
    (calculate_match_scoreD p j).isOk = true ∧ (6:ℚ)/10 ≤ scoreKeyD j := by
  unfold scored_jobsD at h
  rcases List.mem_filterMap.mp h with ⟨a, _, hfa⟩
  cases hm : calculate_match_scoreD p a with
  | error e =>
    rw [hm] at hfa
    exact Option.noConfusion hfa
  | ok s =>
    rw [hm] at hfa
    dsimp only at hfa
    by_cases h6 : (6:ℚ)/10 ≤ s
    · rw [if_pos h6] at hfa
      injection hfa with hj
      subst hj
      constructor
      · rw [match_scoreD_setScoreD, hm]
        rfl
      · exact h6
    · rw [if_neg h6] at hfa
      exact Option.noConfusion hfa

/-- Membership in the dynamic stable insertion. -/
theorem mem_insertDescD {x j : JobD} {l : List JobD} :
    x ∈ insertDescD j l ↔ x = j ∨ x ∈ l := by
  induction l with
  | nil => simp [insertDescD]
  | cons a as ih =>
    unfold insertDescD
    split
    · simp only [List.mem_cons, ih]
      tauto
    · simp [List.mem_cons]

/-- The dynamic stable sort does not change membership. -/
theorem mem_sortByScoreDescD {x : JobD} {l : List JobD} :
    x ∈ sortByScoreDescD l ↔ x ∈ l := by
  induction l with
  | nil => simp [sortByScoreDescD]
  | cons a as ih =>
    unfold sortByScoreDescD
    rw [mem_insertDescD, ih, List.mem_cons]

/-- A record whose scoring did not raise cannot make the location gate
raise: with no location preferences the gate never reads the field, and
otherwise a raising field would already have failed scoring. -/
theorem meetsD_ok_of_matchD_ok {p : Prefs} {j : JobD}
    (h : (calculate_match_scoreD p j).isOk = true) :
    (meets_location_requirementD p j).isOk = true := by
  by_cases h1 : p.localisation.isEmpty
  · simp [meets_location_requirementD, h1]
  · by_cases h2 : (p.localisation.any fun l => pyIn "remote" (pyLower l))
    · simp [meets_location_requirementD, h1, h2]
    · cases hl : j.localisation with
      | missing => simp [meets_location_requirementD, h1, h2, hl]
      | strv s => simp [meets_location_requirementD, h1, h2, hl]
      | intv n =>
        exfalso
        have hloc : calculate_location_scoreD p j = Except.error () := by
          simp [calculate_location_scoreD, h1, hl]
        have hm : calculate_match_scoreD p j = Except.error () := by
          show (calculate_location_scoreD p j >>= fun loc => _) = _
          rw [hloc, exceptBind_error]
        rw [hm, isOk_error] at h
        cases h

/-- The dynamic gate filter succeeds when every record's location gate check
does, and returns records from its input. -/
theorem apply_strict_filtersD_ok {p : Prefs} {l : List JobD}
    (h : ∀ j ∈ l, (meets_location_requirementD p j).isOk = true) :
    ∃ out, apply_strict_filtersD p l = Except.ok out ∧ ∀ j ∈ out, j ∈ l := by
  induction l with
  | nil => exact ⟨[], rfl, by simp⟩
  | cons a as ih =>
    obtain ⟨out, hout, hsub⟩ := ih fun j hj => h j (List.mem_cons_of_mem a hj)
    unfold apply_strict_filtersD
    split
    · exact ⟨out, hout, fun j hj => List.mem_cons_of_mem _ (hsub j hj)⟩
    · split
      · exact ⟨out, hout, fun j hj => List.mem_cons_of_mem _ (hsub j hj)⟩
      · have ha := h a (List.mem_cons_self a as)
        obtain ⟨b, hb⟩ : ∃ b, meets_location_requirementD p a = Except.ok b := by
          cases hma : meets_location_requirementD p a with
          | ok b => exact ⟨b, rfl⟩
          | error e =>
            rw [hma] at ha
            cases e
            rw [isOk_error] at ha
            cases ha
        refine ⟨if b then a :: out else out, ?_, ?_⟩
        · show (meets_location_requirementD p a >>= fun b =>
              apply_strict_filtersD p as >>= fun rest =>
                pure (if b then a :: rest else rest)) = _
          rw [hb, exceptBind_ok, hout, exceptBind_ok]
          rfl
        · intro j hj
          cases b with
          | true =>
            simp only [if_true] at hj
            rcases List.mem_cons.mp hj with rfl | hj2
            · exact List.mem_cons_self _ _
            · exact List.mem_cons_of_mem _ (hsub j hj2)
          | false =>
            simp only [Bool.false_eq_true, if_false] at hj
            exact List.mem_cons_of_mem _ (hsub j hj)

/-- Claim C9 (corrected, amended part): when no record's recency check raises
(publication date absent, falsy, or a string), `filter_jobs` returns
normally, skipping any record whose scoring raised; every output record
scored without raising. -/
theorem C9_skip_on_scoring_error (p : Prefs) (now : Nat) (jobs : List JobD)
    (h : ∀ j ∈ jobs, (is_job_recentD now j).isOk = true) :
    ∃ out, filter_jobsD p now jobs = Except.ok out ∧
      ∀ j ∈ out, (calculate_match_scoreD p j).isOk = true := by
  obtain ⟨rec, hrec, _⟩ := recent_filterD_ok h
  have hs : ∀ j ∈ sortByScoreDescD (scored_jobsD p rec),
      (meets_location_requirementD p j).isOk = true := fun j hj =>
    meetsD_ok_of_matchD_ok (mem_scored_jobsD (mem_sortByScoreDescD.mp hj)).1
  obtain ⟨out, hout, houtsub⟩ := apply_strict_filtersD_ok hs
  refine ⟨out, ?_, ?_⟩
  · show (recent_filterD now jobs >>= fun rec =>
        apply_strict_filtersD p (sortByScoreDescD (scored_jobsD p rec))) = _
    rw [hrec, exceptBind_ok, hout]
  · exact fun j hj =>
      (mem_scored_jobsD (mem_sortByScoreDescD.mp (houtsub j hj))).1

/-- Counterexample for C9: a record whose publication date holds a truthy
non-string makes `filter_jobs` itself raise (the recency check runs outside
the `try`, and its `except ValueError` does not catch the `TypeError`). -/
theorem C9_counterexample :
    filter_jobsD prefsOpen now0 [jobBadDate] = Except.error () := rfl

/-- Witness for C9: a batch in which one record's scoring raises (non-string
location) is processed to completion, skipping that record. -/
theorem C9_skip_on_scoring_error_witness :
    (∀ j ∈ [jobBadLoc, jobGoodD], (is_job_recentD now0 j).isOk = true) ∧
    ∃ out, filter_jobsD prefsOpen now0 [jobBadLoc, jobGoodD] = Except.ok out ∧
      ∀ j ∈ out, (calculate_match_scoreD prefsOpen j).isOk = true :=
  ⟨by decide, C9_skip_on_scoring_error prefsOpen now0 [jobBadLoc, jobGoodD] (by decide)⟩

/-- Sanity: salary extraction on the spec's three examples. -/
example : extract_salary_value "45 000 €" = some 45000 := by decide
example : extract_salary_value "45K" = some 45000 := by decide
example : extract_salary_value "competitive" = none := by decide
example : parseDate "2026-10-05" = some (2026, 10, 5) := by decide
example : parseDate "not-a-date" = none := by decide
example : ((dateToDays 2026 10 12 : ℤ) - dateToDays 2026 10 5) = 7 := by decide
example : matchTotal "paris".toList "pariis".toList = 5 := by decide
example : fuzzy_match "paris" "pariis" = true := by
  have h : matchTotal "paris".toList "pariis".toList = 5 := by decide
  simp only [fuzzy_match, sequenceSimilarity, h, decide_eq_true_eq]
  norm_num
example : calculate_match_score ⟨[], [], [], 0, []⟩
    ⟨"t", "d", "paris", "cdi", none, none, none⟩ = 1/2 := by
  norm_num +decide [calculate_match_score, calculate_keyword_score,
    calculate_location_score, calculate_contract_score, calculate_salary_score,
    calculate_company_score, min_def]
